import Mathlib

/-!
Shallow embedding of the medic-cli crash-diagnosis pipeline
(src/medic/cli.py and src/medic/brain.py), together with theorems
settling the specification claims about it.

Python strings are modelled as Lean `String`/`List Char`; the Python
string primitives used by the code (`strip`, `replace`, `in`,
`splitlines`, slicing) are embedded below with their documented
semantics (restricted to the ASCII character classes the pipeline
manipulates).
-/

namespace Medic

/-- Whitespace recognised by Python `str.strip()` (ASCII subset:
space, tab, LF, CR, VT, FF). -/
def pyIsSpace (c : Char) : Bool :=
  c = ' ' || c = '\t' || c = '\n' || c = '\r' || c = '\x0b' || c = '\x0c'

/-- `str.strip()` on a character list: drop leading and trailing whitespace. -/
def pyStripChars (l : List Char) : List Char :=
  ((l.dropWhile pyIsSpace).reverse.dropWhile pyIsSpace).reverse

/-- Python `str.strip()`. -/
def pyStrip (s : String) : String :=
  String.mk (pyStripChars s.data)

/-- Python substring test `pat in s`, on character lists. -/
def containsSub : List Char → List Char → Bool
  | [], pat => pat.isEmpty
  | c :: rest, pat => pat.isPrefixOf (c :: rest) || containsSub rest pat

/-- Left-to-right scan of Python `str.replace(old, new)` for a
non-empty `old`, driven by a fuel argument so that the recursion is
structural (each step consumes at least one character, so a fuel equal
to the input length never runs out; the fuel-zero branch on a non-empty
input is unreachable and fuel-irrelevance is proved below). -/
def replaceAllAux (old new : List Char) : Nat → List Char → List Char
  | _, [] => []
  | 0, s => s
  | fuel + 1, c :: rest =>
    if old ≠ [] ∧ old.isPrefixOf (c :: rest) then
      new ++ replaceAllAux old new fuel (List.drop old.length (c :: rest))
    else
      c :: replaceAllAux old new fuel rest

/-- Python `str.replace(old, new)` (no count argument) on character
lists, for a non-empty `old`: replace every non-overlapping occurrence,
scanning left to right. -/
def replaceAllChars (old new s : List Char) : List Char :=
  replaceAllAux old new s.length s

/-- Python `str.replace(old, new)` with no count: all occurrences are
replaced; an empty `old` inserts `new` between every character and at
both ends. -/
def pyReplaceAll (s old new : String) : String :=
  if old.data = [] then
    String.mk (new.data ++ s.data.flatMap (fun c => c :: new.data))
  else
    String.mk (replaceAllChars old.data new.data s.data)

/-- Replace only the first occurrence, on character lists (non-empty `old`). -/
def replaceFirstChars (old new : List Char) : List Char → List Char
  | [] => []
  | c :: rest =>
    if old ≠ [] ∧ old.isPrefixOf (c :: rest) then
      new ++ List.drop old.length (c :: rest)
    else
      c :: replaceFirstChars old new rest

/-- Modelled from the spec's words (`content.replace(old, new, 1)`):
Python `str.replace` with count 1 — only the first occurrence is
replaced; with an empty `old`, `new` is inserted once at the front. -/
def pyReplaceFirst (s old new : String) : String :=
  if old.data = [] then
    String.mk (new.data ++ s.data)
  else
    String.mk (replaceFirstChars old.data new.data s.data)

/-- Python `str.splitlines()` restricted to the terminators `\n`,
`\r\n` and `\r`; no trailing empty line is produced. -/
def splitlinesAux : List Char → List Char → List String
  | [], acc => if acc.isEmpty then [] else [String.mk acc.reverse]
  | '\r' :: '\n' :: rest, acc => String.mk acc.reverse :: splitlinesAux rest []
  | '\r' :: rest, acc => String.mk acc.reverse :: splitlinesAux rest []
  | '\n' :: rest, acc => String.mk acc.reverse :: splitlinesAux rest []
  | c :: rest, acc => splitlinesAux rest (c :: acc)

/-- Python `str.splitlines()`. -/
def splitlines (s : String) : List String := splitlinesAux s.data []

/-- Match a literal character sequence at the start of the input,
returning the remainder on success. -/
def stripLit : List Char → List Char → Option (List Char)
  | [], s => some s
  | _ :: _, [] => none
  | p :: ps, c :: cs => if p = c then stripLit ps cs else none

/-- Value of a digit run, as `int()` reads it. -/
def digitsToNat (ds : List Char) : Nat :=
  ds.foldl (fun n c => 10 * n + (c.toNat - '0'.toNat)) 0

/-- Attempt the regex `File "([^"]+)", line (\d+)` anchored at the
start of the input (`\d` restricted to ASCII digits).  Greediness needs
no backtracking here: `[^"]+` is the maximal run of non-quote
characters and `\d+` the maximal digit run. -/
def matchAt (cs : List Char) : Option (String × Nat) :=
  match stripLit "File \"".data cs with
  | none => none
  | some rest1 =>
    let g1 := rest1.takeWhile (fun c => c ≠ '"')
    let rest2 := rest1.dropWhile (fun c => c ≠ '"')
    if g1.isEmpty then none
    else
      match stripLit "\", line ".data rest2 with
      | none => none
      | some rest3 =>
        let ds := rest3.takeWhile Char.isDigit
        if ds.isEmpty then none
        else some (String.mk g1, digitsToNat ds)

/-- `re.search` of the pattern within one line: leftmost match wins. -/
def searchLine : List Char → Option (String × Nat)
  | [] => none
  | c :: rest =>
    match matchAt (c :: rest) with
    | some r => some r
    | none => searchLine rest

/-- `parse_error` from cli.py: scan the captured text's lines from the
last toward the first and return the first regex match found; `none`
models Python's `(None, None)`. -/
def parse_error (error_text : String) : Option (String × Nat) :=
  (splitlines error_text).reverse.findSome? (fun l => searchLine l.data)

example : parse_error "File \"a.py\", line 3" = some ("a.py", 3) := by decide
example : parse_error "x\nFile \"a.py\", line 3\nFile \"b.py\", line 7\ny" =
    some ("b.py", 7) := by decide
example : parse_error "no location here" = none := by decide
example : parse_error "File \"x\", line 0" = some ("x", 0) := by decide

/-- Normalisation of one bound of a Python slice `s[a:b]`: a negative
index counts from the end, and both bounds are clamped to `[0, len]`. -/
def pySliceIndex (len : Nat) (i : Int) : Nat :=
  if i < 0 then ((len : Int) + i).toNat else min i.toNat len

/-- Python list slice `l[a:b]`. -/
def pySlice {α : Type} (l : List α) (a b : Int) : List α :=
  (l.take (pySliceIndex l.length b)).drop (pySliceIndex l.length a)

/-- `start = max(0, center_index - window)` from `get_file_window`,
with `center_index = crash_line - 1`. -/
def window_start (crash_line window : Int) : Int :=
  max 0 (crash_line - 1 - window)

/-- `end = min(len(lines), center_index + window + 1)` from `get_file_window`. -/
def window_stop (numLines : Nat) (crash_line window : Int) : Int :=
  min (numLines : Int) (crash_line - 1 + window + 1)

/-- The slice `lines[start:end]` taken by `get_file_window`. -/
def window_slice (lines : List String) (crash_line window : Int) : List String :=
  pySlice lines (window_start crash_line window)
    (window_stop lines.length crash_line window)

/-- `get_file_window` from cli.py: `lines` is the `readlines()` result
(each line keeps its terminator); returns `"".join(lines[start:end])`. -/
def get_file_window (lines : List String) (crash_line window : Int) : String :=
  String.join (window_slice lines crash_line window)

/-- Kind of a node met by `ast.walk`; in Python's `ast` module,
`AsyncFunctionDef` is not a subclass of `FunctionDef`, so
`isinstance(node, ast.FunctionDef)` is true only for the synchronous kind. -/
inductive NodeKind
  | FunctionDef
  | AsyncFunctionDef
  | ClassDef
  | Other
deriving DecidableEq

/-- A node of the parsed tree as `ast.walk` yields it: its kind, its
`lineno`/`end_lineno` attributes (with the `getattr` default `-1`), and
the exact source slice `ast.get_source_segment` returns for it. -/
structure AstNode where
  kind : NodeKind
  lineno : Int
  end_lineno : Int
  segment : String
deriving DecidableEq

/-- The test applied to each walked node by `get_context`:
`isinstance(node, ast.FunctionDef)` and `start <= crash_line <= end`. -/
def enclosesAsFunction (crash_line : Int) (n : AstNode) : Bool :=
  n.kind == NodeKind.FunctionDef &&
    decide (n.lineno ≤ crash_line) && decide (crash_line ≤ n.end_lineno)

/-- `get_context` from cli.py, over the outcome of `ast.parse`:
`none` models a `SyntaxError`, `some nodes` the `ast.walk` traversal
sequence; the first node passing the test yields its source segment. -/
def get_context (parsed : Option (List AstNode)) (crash_line : Int) : Option String :=
  match parsed with
  | none => none
  | some nodes =>
    (nodes.find? (enclosesAsFunction crash_line)).map AstNode.segment

/-- Lines 179–183 of cli.py: the AST context, falling back to the line
window when `get_context` returns `None` or an empty (falsy) string. -/
def resolve_context (parsed : Option (List AstNode)) (file_lines : List String)
    (line_num : Int) : String :=
  match get_context parsed line_num with
  | some c => if c.isEmpty then get_file_window file_lines line_num 5 else c
  | none => get_file_window file_lines line_num 5

/-- Sanitisation of the backend response (cli.py lines 195–197):
`solution.replace("```python", "").replace("```", "").strip()`. -/
def sanitize (solution : String) : String :=
  pyStrip (pyReplaceAll (pyReplaceAll solution "```python" "") "```" "")

/-- `apply_fix` from cli.py, as a function of the file contents read at
apply time: checks that the trimmed old code is a substring, replaces
(with Python `replace`'s no-count semantics) and writes back.  Returns
the success flag and the file contents after the call. -/
def apply_fix (content old_code new_code : String) : Bool × String :=
  if containsSub content.data (pyStrip old_code).data then
    (true, pyReplaceAll content (pyStrip old_code) (pyStrip new_code))
  else
    (false, content)

example : apply_fix "aXbXc" "X" "Y" = (true, "aYbYc") := by decide
example : apply_fix "abc" "zz" "Y" = (false, "abc") := by decide
example : sanitize "```python\nx = 1\n```" = "x = 1" := by decide
example : sanitize "```js\nfixed()\n```" = "js\nfixed()" := by decide
example : get_file_window ["a\n", "b\n", "c\n"] 1 5 = "a\nb\nc\n" := by decide

/-- Python truthiness of an optional string: `None` and `""` are falsy. -/
def strTruthy : Option String → Bool
  | none => false
  | some s => !s.isEmpty

/-- Python `a or b` on optional strings (left operand wins when truthy). -/
def pyOr (a b : Option String) : Option String :=
  match a with
  | some s => if s.isEmpty then b else some s
  | none => b

/-- `os.getenv(name, default)`: the variable's value when set (even when
set to the empty string), the default otherwise. -/
def getenvD (v : Option String) (dflt : String) : String :=
  v.getD dflt

/-- The environment read by the backend constructors in brain.py,
plus the outcome of the Ollama reachability probe (`GET {host}/api/tags`
with a 2s timeout — a network effect, recorded as an oracle bit). -/
structure Env where
  ollamaReachable : Bool
  api_key_env : Option String
  openai_api_key_env : Option String
  ollama_host_env : Option String
  ollama_model_env : Option String
deriving DecidableEq

/-- `OllamaBackend.__init__` fields (the `host` parameter is `None` at
every call site in the repository). -/
structure OllamaBackend where
  host : String
  model : String
deriving DecidableEq

/-- `OllamaBackend(model=model)`: `self.host = host or os.getenv("OLLAMA_HOST",
"http://localhost:11434")` with `host is None`, and `self.model = model or
os.getenv("OLLAMA_MODEL", "llama3.2")`. -/
def OllamaBackend.init (env : Env) (model : String) : OllamaBackend :=
  { host := getenvD env.ollama_host_env "http://localhost:11434"
    model := if model.isEmpty then getenvD env.ollama_model_env "llama3.2" else model }

/-- `OllamaBackend.is_available`: the reachability probe's outcome. -/
def OllamaBackend.is_available (env : Env) (_b : OllamaBackend) : Bool :=
  env.ollamaReachable

/-- `OpenAIBackend.__init__` fields (the `api_key` parameter is never
passed in the repository). -/
structure OpenAIBackend where
  api_key : Option String
  model : String
deriving DecidableEq

/-- `OpenAIBackend(model=model)`: `self.api_key = api_key or
os.getenv("API_KEY") or os.getenv("OPENAI_API_KEY")` with `api_key is None`. -/
def OpenAIBackend.init (env : Env) (model : String) : OpenAIBackend :=
  { api_key := pyOr env.api_key_env env.openai_api_key_env
    model := model }

/-- `OpenAIBackend.is_available`: `self.api_key is not None`. -/
def OpenAIBackend.is_available (b : OpenAIBackend) : Bool :=
  b.api_key.isSome

/-- A constructed backend, as `auto_select` returns it. -/
inductive Backend
  | ollama (b : OllamaBackend)
  | openai (b : OpenAIBackend)
deriving DecidableEq

/-- The argument passed to a backend constructor for the pattern
`X(model=model) if model else X()`, where the constructor's default is
`dflt`. -/
def modelArg (model : Option String) (dflt : String) : String :=
  match model with
  | some m => if m.isEmpty then dflt else m
  | none => dflt

/-- The RuntimeError text raised by `auto_select` when nothing is available. -/
def noBackendMsg : String :=
  "No AI backend available.\n  - Install Ollama for local/private mode: https://ollama.com\n  - Or set OPENAI_API_KEY env variable for cloud mode."

/-- `BackendFactory.auto_select` from brain.py: construct the Ollama
backend and use it when its probe succeeds; otherwise construct the
OpenAI backend and use it when a credential is present; otherwise raise
(modelled as `Except.error` carrying the RuntimeError text). -/
def auto_select (env : Env) (model : Option String) : Except String Backend :=
  let ollama := OllamaBackend.init env (modelArg model "llama3.2")
  if OllamaBackend.is_available env ollama then
    Except.ok (Backend.ollama ollama)
  else
    let openai := OpenAIBackend.init env (modelArg model "gpt-4.1-mini")
    if openai.is_available then
      Except.ok (Backend.openai openai)
    else
      Except.error noBackendMsg

/-- Collaborator calls the Supervisor may make after the child process
has exited (cli.py lines 156–235). -/
inductive Event
  | locatorCall
  | extractorCall
  | windowCall
  | backendCall
  | applyCall
deriving DecidableEq

/-- Terminal outcome of one diagnosis cycle. -/
inductive Outcome
  | success
  | noLocation
  | noContext
  | noSolution
  | dryRun
  | applied (ok : Bool)
  | skipped
  | backendRaised (msg : String)
deriving DecidableEq

/-- The inputs that determine what `run_script` does after
`process.wait()`: the exit status, the captured combined output, the
effects of reading/parsing the located file, the backend's answer
(`Except.error` models `query_model` raising because no backend is
available), the mode flags, the interactive answer, and the file
contents re-read by `apply_fix`. -/
structure RunInputs where
  returncode : Int
  captured : String
  parsed : Option (List AstNode)
  file_lines : List String
  query_result : Except String String
  dry_run : Bool
  auto_fix : Bool
  user_yes : Bool
  file_at_apply : String

/-- cli.py lines 156–235: everything after `process.wait()`, returning
the sequence of collaborator calls made and the outcome. -/
def run_script_after_wait (inp : RunInputs) : List Event × Outcome :=
  if inp.returncode ≠ 0 then
    match parse_error inp.captured with
    | none => ([Event.locatorCall], Outcome.noLocation)
    | some (file_name, line_num) =>
      if file_name.isEmpty || line_num == 0 then
        ([Event.locatorCall], Outcome.noLocation)
      else
        let ctx0 := get_context inp.parsed (line_num : Int)
        let usedWindow := match ctx0 with
          | some c => c.isEmpty
          | none => true
        let ctx := resolve_context inp.parsed inp.file_lines (line_num : Int)
        let evs := [Event.locatorCall, Event.extractorCall] ++
          (if usedWindow then [Event.windowCall] else [])
        if ctx.isEmpty then (evs, Outcome.noContext)
        else
          match inp.query_result with
          | Except.error e => (evs ++ [Event.backendCall], Outcome.backendRaised e)
          | Except.ok sol =>
            if sol.isEmpty then (evs ++ [Event.backendCall], Outcome.noSolution)
            else
              let fix := sanitize sol
              if inp.dry_run then (evs ++ [Event.backendCall], Outcome.dryRun)
              else if inp.auto_fix || inp.user_yes then
                let res := apply_fix inp.file_at_apply ctx fix
                (evs ++ [Event.backendCall, Event.applyCall], Outcome.applied res.1)
              else
                (evs ++ [Event.backendCall], Outcome.skipped)
  else
    ([], Outcome.success)

/-! ### Lemmas about the embedded string primitives -/

theorem prefixCheck_iff (p s : List Char) :
    p.isPrefixOf s = true ↔ ∃ t, s = p ++ t := by
  induction p generalizing s with
  | nil => simp
  | cons a ps ih =>
    cases s with
    | nil => simp
    | cons c cs =>
      simp only [List.isPrefixOf_cons₂, Bool.and_eq_true, beq_iff_eq, ih,
        List.cons_append, List.cons.injEq]
      constructor
      · rintro ⟨rfl, t, rfl⟩
        exact ⟨t, rfl, rfl⟩
      · rintro ⟨t, rfl, rfl⟩
        exact ⟨rfl, t, rfl⟩

theorem containsSub_iff (s pat : List Char) :
    containsSub s pat = true ↔ ∃ pre post, s = pre ++ pat ++ post := by
  induction s with
  | nil =>
    simp only [containsSub, List.isEmpty_iff]
    constructor
    · rintro rfl
      exact ⟨[], [], rfl⟩
    · rintro ⟨pre, post, h⟩
      rcases List.append_eq_nil.mp h.symm with ⟨h1, -⟩
      exact (List.append_eq_nil.mp h1).2
  | cons c rest ih =>
    simp only [containsSub, Bool.or_eq_true, prefixCheck_iff, ih]
    constructor
    · rintro (⟨t, h⟩ | ⟨pre, post, rfl⟩)
      · exact ⟨[], t, by simpa using h⟩
      · exact ⟨c :: pre, post, rfl⟩
    · rintro ⟨pre, post, h⟩
      cases pre with
      | nil =>
        left
        exact ⟨post, by simpa using h⟩
      | cons p pre' =>
        right
        rcases List.cons.injEq .. ▸ h with ⟨-, h2⟩
        exact ⟨pre', post, by simpa using h2⟩

theorem replaceAllAux_irrel (old new : List Char) (f₁ : Nat) :
    ∀ (f₂ : Nat) (s : List Char), s.length ≤ f₁ → s.length ≤ f₂ →
      replaceAllAux old new f₁ s = replaceAllAux old new f₂ s := by
  induction f₁ with
  | zero =>
    intro f₂ s h1 _
    have hs : s = [] := List.length_eq_zero.mp (Nat.le_zero.mp h1)
    subst hs
    cases f₂ <;> rfl
  | succ f ih =>
    intro f₂ s h1 h2
    cases s with
    | nil => cases f₂ <;> rfl
    | cons c rest =>
      cases f₂ with
      | zero => simp at h2
      | succ g =>
        simp only [replaceAllAux]
        by_cases hc : old ≠ [] ∧ old.isPrefixOf (c :: rest) = true
        · rw [if_pos hc, if_pos hc]
          have hold : 0 < old.length := List.length_pos.mpr hc.1
          have hlen : (List.drop old.length (c :: rest)).length ≤ f := by
            simp only [List.length_drop, List.length_cons]
            simp only [List.length_cons] at h1
            omega
          have hlen2 : (List.drop old.length (c :: rest)).length ≤ g := by
            simp only [List.length_drop, List.length_cons]
            simp only [List.length_cons] at h2
            omega
          rw [ih _ _ hlen hlen2]
        · rw [if_neg hc, if_neg hc]
          have hl1 : rest.length ≤ f := by simp at h1; omega
          have hl2 : rest.length ≤ g := by simp at h2; omega
          rw [ih _ _ hl1 hl2]

theorem replaceAllChars_cons_pos (old new : List Char) (c : Char) (rest : List Char)
    (h1 : old ≠ []) (h2 : old.isPrefixOf (c :: rest) = true) :
    replaceAllChars old new (c :: rest) =
      new ++ replaceAllChars old new (List.drop old.length (c :: rest)) := by
  unfold replaceAllChars
  simp only [List.length_cons, replaceAllAux, if_pos (And.intro h1 h2)]
  have hold : 0 < old.length := List.length_pos.mpr h1
  rw [replaceAllAux_irrel old new rest.length _ _
    (by simp only [List.length_drop, List.length_cons]; omega) (Nat.le_refl _)]

theorem replaceAllChars_cons_neg (old new : List Char) (c : Char) (rest : List Char)
    (h : ¬(old ≠ [] ∧ old.isPrefixOf (c :: rest) = true)) :
    replaceAllChars old new (c :: rest) = c :: replaceAllChars old new rest := by
  unfold replaceAllChars
  simp only [List.length_cons, replaceAllAux, if_neg h]

theorem replaceAllChars_skip (o : Char) (old' new chunk t : List Char)
    (hc : ∀ c ∈ chunk, c ≠ o) :
    replaceAllChars (o :: old') new (chunk ++ t) =
      chunk ++ replaceAllChars (o :: old') new t := by
  induction chunk with
  | nil => simp
  | cons c ch ih =>
    have hco : c ≠ o := hc c (by simp)
    rw [List.cons_append, replaceAllChars_cons_neg]
    · rw [ih (fun x hx => hc x (by simp [hx])), List.cons_append]
    · rintro ⟨-, hp⟩
      rw [List.isPrefixOf_cons₂, Bool.and_eq_true, beq_iff_eq] at hp
      exact hco hp.1.symm

theorem replaceAllChars_matchStart (old new t : List Char) (h : old ≠ []) :
    replaceAllChars old new (old ++ t) = new ++ replaceAllChars old new t := by
  obtain ⟨o, old', rfl⟩ : ∃ o old', old = o :: old' := by
    cases old with
    | nil => exact absurd rfl h
    | cons o old' => exact ⟨o, old', rfl⟩
  rw [List.cons_append, replaceAllChars_cons_pos _ _ _ _ h
    ((prefixCheck_iff _ _).mpr ⟨t, by simp⟩)]
  rw [← List.cons_append, List.drop_left]

theorem replaceAllChars_short (old new : List Char) :
    ∀ s : List Char, s.length < old.length → replaceAllChars old new s = s := by
  intro s
  induction s with
  | nil => intro _; rfl
  | cons c rest ih =>
    intro hlen
    rw [replaceAllChars_cons_neg]
    · rw [ih (by simp only [List.length_cons] at hlen; omega)]
    · rintro ⟨-, hp⟩
      obtain ⟨t, ht⟩ := (prefixCheck_iff _ _).mp hp
      have hl := congrArg List.length ht
      simp only [List.length_cons, List.length_append] at hl
      simp only [List.length_cons] at hlen
      omega

theorem replaceAllChars_nil (old new : List Char) : replaceAllChars old new [] = [] := rfl

theorem replaceAllChars_self (old new : List Char) (h : old ≠ []) :
    replaceAllChars old new old = new := by
  have hm := replaceAllChars_matchStart old new [] h
  rw [List.append_nil, replaceAllChars_nil, List.append_nil] at hm
  exact hm

theorem pyStripChars_cons_space (c : Char) (l : List Char) (h : pyIsSpace c = true) :
    pyStripChars (c :: l) = pyStripChars l := by
  simp [pyStripChars, List.dropWhile_cons_of_pos h]

theorem pyStripChars_append_space (l : List Char) (c : Char) (h : pyIsSpace c = true) :
    pyStripChars (l ++ [c]) = pyStripChars l := by
  unfold pyStripChars
  rw [List.dropWhile_append]
  by_cases he : (l.dropWhile pyIsSpace).isEmpty
  · rw [if_pos he]
    rw [List.isEmpty_iff.mp he]
    simp [List.dropWhile_cons_of_pos h]
  · rw [if_neg he]
    rw [List.reverse_append]
    simp [List.dropWhile_cons_of_pos h]

theorem stringMk_data (l : List Char) : (String.mk l).data = l := rfl

theorem pyStrip_mk (l : List Char) : pyStrip (String.mk l) = String.mk (pyStripChars l) := rfl

/-- Effect of the two fence replacements on a python-tagged fenced body
containing no backtick. -/
theorem fence_strip_python (d : List Char) (h : ∀ c ∈ d, c ≠ '`') :
    replaceAllChars ['`', '`', '`'] []
      (replaceAllChars ['`', '`', '`', 'p', 'y', 't', 'h', 'o', 'n'] []
        (['`', '`', '`', 'p', 'y', 't', 'h', 'o', 'n', '\n'] ++ d ++ ['\n', '`', '`', '`'])) =
    '\n' :: (d ++ ['\n']) := by
  have hc1 : ∀ c ∈ ('\n' :: (d ++ ['\n']) : List Char), c ≠ '`' := by
    intro c hcm
    rcases List.mem_cons.mp hcm with rfl | hcm2
    · decide
    · rcases List.mem_append.mp hcm2 with hcm3 | hcm4
      · exact h c hcm3
      · rcases List.mem_singleton.mp hcm4 with rfl
        decide
  have hshape :
      (['`', '`', '`', 'p', 'y', 't', 'h', 'o', 'n', '\n'] ++ d ++ ['\n', '`', '`', '`'] :
        List Char) =
      ['`', '`', '`', 'p', 'y', 't', 'h', 'o', 'n'] ++
        (('\n' :: (d ++ ['\n'])) ++ ['`', '`', '`']) := by
    simp
  rw [hshape, replaceAllChars_matchStart _ _ _ (by simp), List.nil_append,
    replaceAllChars_skip '`' ['`', '`', 'p', 'y', 't', 'h', 'o', 'n'] [] _ _ hc1,
    replaceAllChars_short ['`', '`', '`', 'p', 'y', 't', 'h', 'o', 'n'] []
      ['`', '`', '`'] (by decide),
    replaceAllChars_skip '`' ['`', '`'] [] _ _ hc1,
    replaceAllChars_self ['`', '`', '`'] [] (by simp), List.append_nil]

/-- Effect of the two fence replacements on a js-tagged fenced body
containing no backtick: the backticks go, the tag text stays. -/
theorem fence_strip_js (d : List Char) (h : ∀ c ∈ d, c ≠ '`') :
    replaceAllChars ['`', '`', '`'] []
      (replaceAllChars ['`', '`', '`', 'p', 'y', 't', 'h', 'o', 'n'] []
        (['`', '`', '`', 'j', 's', '\n'] ++ d ++ ['\n', '`', '`', '`'])) =
    'j' :: 's' :: '\n' :: (d ++ ['\n']) := by
  have hc1 : ∀ c ∈ ('j' :: 's' :: '\n' :: (d ++ ['\n']) : List Char), c ≠ '`' := by
    intro c hcm
    rcases List.mem_cons.mp hcm with rfl | hcm2
    · decide
    rcases List.mem_cons.mp hcm2 with rfl | hcm3
    · decide
    rcases List.mem_cons.mp hcm3 with rfl | hcm4
    · decide
    rcases List.mem_append.mp hcm4 with hcm5 | hcm6
    · exact h c hcm5
    · rcases List.mem_singleton.mp hcm6 with rfl
      decide
  have hshapeA :
      (['`', '`', '`', 'j', 's', '\n'] ++ d ++ ['\n', '`', '`', '`'] : List Char) =
      '`' :: ('`' :: ('`' :: (('j' :: 's' :: '\n' :: (d ++ ['\n'])) ++ ['`', '`', '`']))) := by
    simp
  have hshapeB :
      (['`', '`', '`', 'j', 's', '\n'] ++ d ++ ['\n', '`', '`', '`'] : List Char) =
      ['`', '`', '`'] ++ (('j' :: 's' :: '\n' :: (d ++ ['\n'])) ++ ['`', '`', '`']) := by
    simp
  have hstep1 :
      replaceAllChars ['`', '`', '`', 'p', 'y', 't', 'h', 'o', 'n'] []
        (['`', '`', '`', 'j', 's', '\n'] ++ d ++ ['\n', '`', '`', '`']) =
      ['`', '`', '`', 'j', 's', '\n'] ++ d ++ ['\n', '`', '`', '`'] := by
    rw [hshapeA]
    rw [replaceAllChars_cons_neg]
    case h =>
      rintro ⟨-, hp⟩
      simp only [List.cons_append, List.isPrefixOf_cons₂, Bool.and_eq_true, beq_iff_eq] at hp
      exact absurd hp.2.2.2.1 (by decide)
    rw [replaceAllChars_cons_neg]
    case h =>
      rintro ⟨-, hp⟩
      simp only [List.cons_append, List.isPrefixOf_cons₂, Bool.and_eq_true, beq_iff_eq] at hp
      exact absurd hp.2.2.1 (by decide)
    rw [replaceAllChars_cons_neg]
    case h =>
      rintro ⟨-, hp⟩
      simp only [List.cons_append, List.isPrefixOf_cons₂, Bool.and_eq_true, beq_iff_eq] at hp
      exact absurd hp.2.1 (by decide)
    rw [replaceAllChars_skip '`' ['`', '`', 'p', 'y', 't', 'h', 'o', 'n'] [] _ _ hc1,
      replaceAllChars_short ['`', '`', '`', 'p', 'y', 't', 'h', 'o', 'n'] []
        ['`', '`', '`'] (by decide)]
  rw [hstep1, hshapeB]
  rw [replaceAllChars_matchStart ['`', '`', '`'] [] _ (by simp), List.nil_append,
    replaceAllChars_skip '`' ['`', '`'] [] _ _ hc1,
    replaceAllChars_self ['`', '`', '`'] [] (by simp), List.append_nil]

/-! ### Claim C1 -/

/-- C1 counterexample: `apply_fix` replaces every occurrence of the
trimmed old code, not only the first, so the claimed equality with
`content.replace(old.strip(), new.strip(), 1)` fails on contents
holding two occurrences. -/
theorem apply_first_occurrence_counterexample :
    apply_fix "aXbXc" "X" "Y" = (true, "aYbYc") ∧
    pyReplaceFirst "aXbXc" (pyStrip "X") (pyStrip "Y") = "aYbXc" ∧
    ("aYbYc" : String) ≠ "aYbXc" := by
  decide

/-- C1 (amended): when the trimmed old code occurs in the current file
contents, `apply_fix` succeeds and the resulting contents equal
`content.replace(old.strip(), new.strip())` — every occurrence
replaced, which coincides with the claim when the occurrence is unique. -/
theorem apply_fix_replaces_all (content old_code new_code : String)
    (h : ∃ pre post : List Char,
      content.data = pre ++ (pyStrip old_code).data ++ post) :
    apply_fix content old_code new_code =
      (true, pyReplaceAll content (pyStrip old_code) (pyStrip new_code)) := by
  have hc : containsSub content.data (pyStrip old_code).data = true :=
    (containsSub_iff _ _).mpr h
  simp [apply_fix, hc]

/-- C1 witness. -/
theorem apply_fix_replaces_all_witness :
    apply_fix "aXbXc" "X" "Y" =
      (true, pyReplaceAll "aXbXc" (pyStrip "X") (pyStrip "Y")) :=
  apply_fix_replaces_all "aXbXc" "X" "Y" ⟨['a'], ['b', 'X', 'c'], by decide⟩

/-! ### Claim C2 -/

/-- C2: when the trimmed old code does not occur anywhere in the current
file contents, `apply_fix` returns false and the contents are unchanged. -/
theorem apply_fix_no_match_no_write (content old_code new_code : String)
    (h : ∀ pre post : List Char,
      content.data ≠ pre ++ (pyStrip old_code).data ++ post) :
    apply_fix content old_code new_code = (false, content) := by
  have hc : containsSub content.data (pyStrip old_code).data = false := by
    cases hcc : containsSub content.data (pyStrip old_code).data with
    | false => rfl
    | true =>
      obtain ⟨pre, post, hp⟩ := (containsSub_iff _ _).mp hcc
      exact absurd hp (h pre post)
  simp [apply_fix, hc]

/-- C2 witness. -/
theorem apply_fix_no_match_no_write_witness :
    apply_fix "abc" "zz" "Y" = (false, "abc") :=
  apply_fix_no_match_no_write "abc" "zz" "Y" (fun pre post hp =>
    absurd ((containsSub_iff "abc".data (pyStrip "zz").data).mpr ⟨pre, post, hp⟩)
      (by decide))

/-! ### Claim C3 -/

/-- C3: on any captured text with at least one marker-bearing line the
Locator returns the match of the last such line (every later line
matches nothing), and on a text with no matching line it returns
`none`; being a total function, it never raises. -/
theorem parse_error_last_matching_line (text : String) :
    ((∃ l ∈ splitlines text, (searchLine l.data).isSome) →
      ∃ pre l post, splitlines text = pre ++ l :: post ∧
        parse_error text = searchLine l.data ∧
        (searchLine l.data).isSome ∧
        ∀ l2 ∈ post, searchLine l2.data = none) ∧
    ((∀ l ∈ splitlines text, searchLine l.data = none) →
      parse_error text = none) := by
  constructor
  · rintro ⟨l0, hl0, hsome0⟩
    have hsome :
        ((splitlines text).reverse.findSome? (fun l => searchLine l.data)).isSome := by
      rw [List.findSome?_isSome_iff]
      exact ⟨l0, List.mem_reverse.mpr hl0, hsome0⟩
    obtain ⟨b, hb⟩ := Option.isSome_iff_exists.mp hsome
    obtain ⟨l₁, a, l₂, hsplit, hfa, hnone⟩ := List.findSome?_eq_some_iff.mp hb
    refine ⟨l₂.reverse, a, l₁.reverse, ?_, ?_, ?_, ?_⟩
    · have hr := congrArg List.reverse hsplit
      simp only [List.reverse_reverse, List.reverse_append, List.reverse_cons,
        List.append_assoc, List.singleton_append] at hr
      exact hr
    · unfold parse_error
      rw [hb]
      exact hfa.symm
    · rw [hfa]
      rfl
    · intro l2 hl2
      exact hnone l2 (List.mem_reverse.mp hl2)
  · intro hall
    unfold parse_error
    rw [List.findSome?_eq_none_iff]
    intro l hl
    exact hall l (List.mem_reverse.mp hl)

/-- C3 witness: a two-frame traceback resolves to the later frame. -/
theorem parse_error_last_matching_line_witness :
    ∃ pre l post,
      splitlines "File \"a.py\", line 3\nFile \"b.py\", line 7" = pre ++ l :: post ∧
      parse_error "File \"a.py\", line 3\nFile \"b.py\", line 7" = searchLine l.data ∧
      (searchLine l.data).isSome ∧
      ∀ l2 ∈ post, searchLine l2.data = none :=
  (parse_error_last_matching_line "File \"a.py\", line 3\nFile \"b.py\", line 7").1
    (by decide)

/-! ### Claim C4 -/

/-- C4: whenever some walked node is a synchronous function definition
whose line span contains the crash line, `get_context` returns the
exact source segment of the first such node in traversal order. -/
theorem get_context_first_enclosing_function (nodes : List AstNode) (crash_line : Int)
    (h : ∃ n ∈ nodes, enclosesAsFunction crash_line n = true) :
    ∃ pre n post, nodes = pre ++ n :: post ∧
      enclosesAsFunction crash_line n = true ∧
      (∀ m ∈ pre, enclosesAsFunction crash_line m = false) ∧
      get_context (some nodes) crash_line = some n.segment := by
  obtain ⟨n0, hn0, hp0⟩ := h
  have hsome : (nodes.find? (enclosesAsFunction crash_line)).isSome :=
    List.find?_isSome.mpr ⟨n0, hn0, hp0⟩
  obtain ⟨n, hn⟩ := Option.isSome_iff_exists.mp hsome
  obtain ⟨hpn, pre, post, hsplit, hpre⟩ := List.find?_eq_some.mp hn
  refine ⟨pre, n, post, hsplit, hpn, ?_, ?_⟩
  · intro m hm
    have hm2 := hpre m hm
    simpa using hm2
  · simp [get_context, hn]

/-- C4 witness: two nested function definitions both containing line 3;
the first in walk order wins. -/
theorem get_context_first_enclosing_function_witness :
    ∃ pre n post,
      [(⟨NodeKind.FunctionDef, 1, 10, "def outer(): ..."⟩ : AstNode),
        ⟨NodeKind.FunctionDef, 2, 5, "def inner(): ..."⟩] = pre ++ n :: post ∧
      enclosesAsFunction 3 n = true ∧
      (∀ m ∈ pre, enclosesAsFunction 3 m = false) ∧
      get_context
        (some [⟨NodeKind.FunctionDef, 1, 10, "def outer(): ..."⟩,
          ⟨NodeKind.FunctionDef, 2, 5, "def inner(): ..."⟩]) 3 = some n.segment :=
  get_context_first_enclosing_function
    [⟨NodeKind.FunctionDef, 1, 10, "def outer(): ..."⟩,
      ⟨NodeKind.FunctionDef, 2, 5, "def inner(): ..."⟩] 3 (by decide)

/-! ### Claim C5 -/

/-- C5: the fallback window is the slice around the crash line with its
start clamped at 0 and its stop clamped at the line count, holding at
most 2·5+1 = 11 lines; and whenever AST extraction yields nothing the
pipeline's context is exactly this window. -/
theorem file_window_clipped (lines : List String) (crash_line : Int)
    (h1 : lines ≠ []) (h2 : 1 ≤ crash_line)
    (h3 : crash_line ≤ (lines.length : Int)) :
    (window_slice lines crash_line 5).length ≤ 11 ∧
    0 ≤ window_start crash_line 5 ∧
    window_stop lines.length crash_line 5 ≤ (lines.length : Int) ∧
    get_file_window lines crash_line 5 = String.join (window_slice lines crash_line 5) ∧
    (∀ parsed, get_context parsed crash_line = none →
      resolve_context parsed lines crash_line = get_file_window lines crash_line 5) := by
  refine ⟨?_, le_max_left 0 _, min_le_left _ _, rfl, ?_⟩
  · unfold window_slice pySlice pySliceIndex window_start window_stop
    simp only [List.length_drop, List.length_take]
    split_ifs <;> omega
  · intro parsed hnone
    simp [resolve_context, hnone]

/-- C5 witness: clipping at the first and at the last line of a
three-line file. -/
theorem file_window_clipped_witness :
    (window_slice ["a\n", "b\n", "c\n"] 1 5).length ≤ 11 ∧
    (window_slice ["a\n", "b\n", "c\n"] 3 5).length ≤ 11 :=
  ⟨(file_window_clipped ["a\n", "b\n", "c\n"] 1 (by decide) (by decide) (by decide)).1,
    (file_window_clipped ["a\n", "b\n", "c\n"] 3 (by decide) (by decide) (by decide)).1⟩

/-! ### Claim C6 -/

/-- C6: `auto_select` prefers the local backend — when the Ollama probe
succeeds it returns the Ollama backend and its result does not depend on
either credential variable; only when the probe fails is the credential
consulted, and with neither available it fails with the message naming
both configuration hints. -/
theorem auto_select_prefers_local (env : Env) (model : Option String) :
    (env.ollamaReachable = true →
      auto_select env model =
        Except.ok (Backend.ollama (OllamaBackend.init env (modelArg model "llama3.2"))) ∧
      ∀ k k2 : Option String,
        auto_select { env with api_key_env := k, openai_api_key_env := k2 } model =
          auto_select env model) ∧
    (env.ollamaReachable = false →
      (OpenAIBackend.init env (modelArg model "gpt-4.1-mini")).is_available = true →
      auto_select env model =
        Except.ok (Backend.openai (OpenAIBackend.init env (modelArg model "gpt-4.1-mini")))) ∧
    (env.ollamaReachable = false →
      (OpenAIBackend.init env (modelArg model "gpt-4.1-mini")).is_available = false →
      auto_select env model = Except.error noBackendMsg ∧
      containsSub noBackendMsg.data "Ollama".data = true ∧
      containsSub noBackendMsg.data "OPENAI_API_KEY".data = true) := by
  refine ⟨?_, ?_, ?_⟩
  · intro hr
    constructor
    · simp [auto_select, OllamaBackend.is_available, hr]
    · intro k k2
      simp [auto_select, OllamaBackend.is_available, OllamaBackend.init, hr]
  · intro hr ha
    simp [auto_select, OllamaBackend.is_available, hr, ha]
  · intro hr ha
    refine ⟨?_, by decide, by decide⟩
    simp [auto_select, OllamaBackend.is_available, hr, ha]

/-- C6 witness. -/
theorem auto_select_prefers_local_witness :
    auto_select ⟨true, none, none, none, none⟩ none =
      Except.ok (Backend.ollama (OllamaBackend.init ⟨true, none, none, none, none⟩
        (modelArg none "llama3.2"))) ∧
    auto_select ⟨false, none, none, none, none⟩ none = Except.error noBackendMsg :=
  ⟨((auto_select_prefers_local ⟨true, none, none, none, none⟩ none).1 rfl).1,
    ((auto_select_prefers_local ⟨false, none, none, none, none⟩ none).2.2 rfl rfl).1⟩

/-! ### Claim C7 -/

/-- C7 counterexample: a fence tagged `js` keeps its tag text after
sanitisation — the backticks are removed but the residue `js` remains,
so the result is not the bare code. -/
theorem sanitize_fence_tag_counterexample :
    sanitize "```js\nfixed()\n```" = "js\nfixed()" ∧
    ("js\nfixed()" : String) ≠ "fixed()" := by
  decide

/-- C7 (amended): sanitisation strips surrounding whitespace and removes
the exact markers "```python" and "```"; for a backtick-free body a
python-tagged fence disappears tag included, while a fence with another
tag (here `js`) loses only the backticks and keeps the tag text. -/
theorem sanitize_fence_python_tag_only (body : String)
    (h : ∀ c ∈ body.data, c ≠ '`') :
    sanitize ("```python\n" ++ body ++ "\n```") = pyStrip body ∧
    sanitize ("```js\n" ++ body ++ "\n```") = pyStrip ("js\n" ++ body) := by
  constructor
  · have hd1 : ("```python\n" ++ body ++ "\n```").data =
        ['`', '`', '`', 'p', 'y', 't', 'h', 'o', 'n', '\n'] ++ body.data ++
          ['\n', '`', '`', '`'] := by
      rw [String.data_append, String.data_append]
    have e1 : pyReplaceAll ("```python\n" ++ body ++ "\n```") "```python" "" =
        String.mk (replaceAllChars ['`', '`', '`', 'p', 'y', 't', 'h', 'o', 'n'] []
          (['`', '`', '`', 'p', 'y', 't', 'h', 'o', 'n', '\n'] ++ body.data ++
            ['\n', '`', '`', '`'])) := by
      unfold pyReplaceAll
      rw [if_neg (by decide), hd1]
    have e2 : pyReplaceAll
        (String.mk (replaceAllChars ['`', '`', '`', 'p', 'y', 't', 'h', 'o', 'n'] []
          (['`', '`', '`', 'p', 'y', 't', 'h', 'o', 'n', '\n'] ++ body.data ++
            ['\n', '`', '`', '`']))) "```" "" =
        String.mk ('\n' :: (body.data ++ ['\n'])) := by
      unfold pyReplaceAll
      rw [if_neg (by decide), stringMk_data,
        show ("```".data : List Char) = ['`', '`', '`'] from rfl,
        show ("".data : List Char) = [] from rfl,
        fence_strip_python body.data h]
    calc sanitize ("```python\n" ++ body ++ "\n```")
        = pyStrip (pyReplaceAll
            (pyReplaceAll ("```python\n" ++ body ++ "\n```") "```python" "") "```" "") := rfl
      _ = pyStrip (String.mk ('\n' :: (body.data ++ ['\n']))) := by rw [e1, e2]
      _ = String.mk (pyStripChars ('\n' :: (body.data ++ ['\n']))) := rfl
      _ = String.mk (pyStripChars body.data) := by
          rw [pyStripChars_cons_space _ _ (by decide),
            pyStripChars_append_space _ _ (by decide)]
      _ = pyStrip body := rfl
  · have hd2 : ("```js\n" ++ body ++ "\n```").data =
        ['`', '`', '`', 'j', 's', '\n'] ++ body.data ++ ['\n', '`', '`', '`'] := by
      rw [String.data_append, String.data_append]
    have e1 : pyReplaceAll ("```js\n" ++ body ++ "\n```") "```python" "" =
        String.mk (replaceAllChars ['`', '`', '`', 'p', 'y', 't', 'h', 'o', 'n'] []
          (['`', '`', '`', 'j', 's', '\n'] ++ body.data ++ ['\n', '`', '`', '`'])) := by
      unfold pyReplaceAll
      rw [if_neg (by decide), hd2]
    have e2 : pyReplaceAll
        (String.mk (replaceAllChars ['`', '`', '`', 'p', 'y', 't', 'h', 'o', 'n'] []
          (['`', '`', '`', 'j', 's', '\n'] ++ body.data ++ ['\n', '`', '`', '`']))) "```" "" =
        String.mk ('j' :: 's' :: '\n' :: (body.data ++ ['\n'])) := by
      unfold pyReplaceAll
      rw [if_neg (by decide), stringMk_data,
        show ("```".data : List Char) = ['`', '`', '`'] from rfl,
        show ("".data : List Char) = [] from rfl,
        fence_strip_js body.data h]
    have hre : ('j' :: 's' :: '\n' :: (body.data ++ ['\n']) : List Char) =
        ('j' :: 's' :: '\n' :: body.data) ++ ['\n'] := by
      simp
    calc sanitize ("```js\n" ++ body ++ "\n```")
        = pyStrip (pyReplaceAll
            (pyReplaceAll ("```js\n" ++ body ++ "\n```") "```python" "") "```" "") := rfl
      _ = pyStrip (String.mk ('j' :: 's' :: '\n' :: (body.data ++ ['\n']))) := by
          rw [e1, e2]
      _ = String.mk (pyStripChars ('j' :: 's' :: '\n' :: (body.data ++ ['\n']))) := rfl
      _ = String.mk (pyStripChars ('j' :: 's' :: '\n' :: body.data)) := by
          rw [hre, pyStripChars_append_space _ _ (by decide)]
      _ = pyStrip ("js\n" ++ body) := rfl

/-- C7 witness. -/
theorem sanitize_fence_python_tag_only_witness :
    sanitize ("```python\n" ++ "x = 1" ++ "\n```") = pyStrip "x = 1" ∧
    sanitize ("```js\n" ++ "x = 1" ++ "\n```") = pyStrip ("js\n" ++ "x = 1") :=
  sanitize_fence_python_tag_only "x = 1" (by decide)

/-! ### Claim C8 -/

/-- C8 counterexample: the Locator performs no positivity check — the
marker `line 0` yields line number 0, violating the claimed
`line ≥ 1` invariant. -/
theorem parse_error_line_zero_counterexample :
    parse_error "File \"x\", line 0" = some ("x", 0) ∧ ¬ (1 ≤ (0 : Nat)) := by
  decide

/-- C8 (amended): the returned line number is the literal integer parsed
from the matched marker, so it is ≥ 1 whenever every marker in the text
carries a number ≥ 1; the code itself never enforces positivity, and the
marker `line 0` yields 0. -/
theorem parse_error_line_positive_of_positive_markers (text f : String) (n : Nat)
    (hpos : ∀ l ∈ splitlines text,
      (searchLine l.data).all (fun r => decide (1 ≤ r.2)) = true)
    (h : parse_error text = some (f, n)) : 1 ≤ n := by
  unfold parse_error at h
  obtain ⟨l, hl, hfl⟩ := List.exists_of_findSome?_eq_some h
  have hall := hpos l (List.mem_reverse.mp hl)
  rw [hfl] at hall
  simpa [Option.all] using hall

/-- C8 witness. -/
theorem parse_error_line_positive_witness : (1 : Nat) ≤ 2 :=
  parse_error_line_positive_of_positive_markers "File \"x\", line 2" "x" 2
    (by decide) (by decide)

/-! ### Claim C9 -/

/-- C9: a clean exit (status 0) reports success and makes no
collaborator calls — the event trace is empty, so the Locator, the
Extractor and the Backend are never invoked. -/
theorem clean_exit_no_diagnosis (inp : RunInputs) (h : inp.returncode = 0) :
    run_script_after_wait inp = ([], Outcome.success) := by
  unfold run_script_after_wait
  rw [if_neg (by simp [h])]

/-- C9 witness. -/
theorem clean_exit_no_diagnosis_witness :
    run_script_after_wait ⟨0, "", none, [], Except.ok "", false, false, false, ""⟩ =
      ([], Outcome.success) :=
  clean_exit_no_diagnosis _ rfl

/-! ### Claim C10 -/

/-- C10: when the parse succeeds, an async function definition spans the
crash line and no synchronous one does, `get_context` yields nothing —
`isinstance(node, ast.FunctionDef)` rejects async definitions — and the
pipeline takes the line-window fallback. -/
theorem get_context_skips_async (nodes : List AstNode) (file_lines : List String)
    (crash_line : Int)
    (hsync : ∀ n ∈ nodes, n.kind = NodeKind.FunctionDef →
      ¬(n.lineno ≤ crash_line ∧ crash_line ≤ n.end_lineno))
    (hasync : ∃ n ∈ nodes, n.kind = NodeKind.AsyncFunctionDef ∧
      n.lineno ≤ crash_line ∧ crash_line ≤ n.end_lineno) :
    get_context (some nodes) crash_line = none ∧
    resolve_context (some nodes) file_lines crash_line =
      get_file_window file_lines crash_line 5 := by
  have hnone : nodes.find? (enclosesAsFunction crash_line) = none := by
    rw [List.find?_eq_none]
    intro n hn hpn
    simp only [enclosesAsFunction, Bool.and_eq_true, beq_iff_eq,
      decide_eq_true_eq] at hpn
    exact hsync n hn hpn.1.1 ⟨hpn.1.2, hpn.2⟩
  constructor
  · simp [get_context, hnone]
  · simp [resolve_context, get_context, hnone]

/-- C10 witness: a lone async function spanning the crash line. -/
theorem get_context_skips_async_witness :
    get_context (some [(⟨NodeKind.AsyncFunctionDef, 1, 5, "async def f(): ..."⟩ : AstNode)]) 2 =
      none ∧
    resolve_context (some [(⟨NodeKind.AsyncFunctionDef, 1, 5, "async def f(): ..."⟩ : AstNode)])
      ["a\n", "b\n"] 2 = get_file_window ["a\n", "b\n"] 2 5 :=
  get_context_skips_async [⟨NodeKind.AsyncFunctionDef, 1, 5, "async def f(): ..."⟩]
    ["a\n", "b\n"] 2 (by decide) (by decide)

end Medic
